import Mathlib

/-!
Verification of the rule-matching engine of the licensure assessment backend.

The embedding follows the source files:
  * `backend/services/matcher.py` — `FEATURE_NAMES`, `get_feature_names`,
    `match_requirements`, `_match_requirements_generator`;
  * `backend/models.py` — `ALLOWED_FEATURES`, `BusinessInput` validation.

Modelling conventions:
  * Python `int` is `Int`; Python strings are `String`, compared (as Python
    does) lexicographically by code points — `String.trim` and `String.lt`
    of the core library do not reduce in the kernel, so Python `str.strip`
    and string comparison are re-implemented over `String.data`.
  * A rule dict is a record of `Option` display fields plus a `conditions`
    association list (`conditions` is an open string-keyed dict in the
    source; unrecognized keys must be representable).
  * The stable Python `list.sort(key=...)` is modelled with the stable
    `List.insertionSort`; the `KeyError` raised by
    `priority_order[x.priority]` on an out-of-enum priority is modelled by
    an `Except.error` result (Python decorates the whole list with keys
    before sorting, so any single unknown priority aborts the call).
-/

/-- Python code-point comparison of characters (`<`). -/
def charLt (a b : Char) : Bool := decide (a < b)

/-- Python lexicographic `<` on strings, over their character lists. -/
def lexLt : List Char → List Char → Bool
  | _, [] => false
  | [], _ :: _ => true
  | a :: as, b :: bs => charLt a b || (a == b && lexLt as bs)

/-- Python `a < b` on strings. -/
def pyStrLt (a b : String) : Bool := lexLt a.data b.data

/-- Python `a <= b` on strings (total order: `¬ b < a`). -/
def pyStrLe (a b : String) : Bool := !(pyStrLt b a)

/-- Python `str.strip()`: drop leading and trailing whitespace. -/
def pyStrip (s : String) : String :=
  ⟨((s.data.dropWhile Char.isWhitespace).reverse.dropWhile Char.isWhitespace).reverse⟩

/-- Python `sorted` on a list of strings (ascending code-point order). -/
def sortTags (l : List String) : List String :=
  l.insertionSort (fun a b => pyStrLe a b = true)

/-- A JSON-ish value stored under a condition key in the `conditions` dict of a rule
dict: `null`/absent, an integer, or a list of string tags.  (Other value
types would be a `TypeError` in the Python comparison code and are outside
the contract; they are not modelled.) -/
inductive CVal where
  | cnull : CVal
  | cint : Int → CVal
  | clist : List String → CVal
deriving DecidableEq

/-- Python truthiness of a condition value (`if cond.get("size_any"):`). -/
def CVal.truthy : CVal → Bool
  | .cnull => false
  | .cint n => n != 0
  | .clist l => !l.isEmpty

/-- Python `val is not None` (absent keys read back as `None`). -/
def CVal.isNotNone : CVal → Bool
  | .cnull => false
  | _ => true

/-- The integer carried by a condition value (in-contract: `cint`). -/
def CVal.asInt : CVal → Int
  | .cint n => n
  | _ => 0

/-- The tag list carried by a condition value (in-contract: `clist`). -/
def CVal.asList : CVal → List String
  | .clist l => l
  | _ => []

/-- The `conditions` dict of a rule: an open association list from string
keys to values, as in the `Dict[str, Any]` of the source. -/
abbrev CondMap := List (String × CVal)

/-- `cond.get(k)` — `None` when the key is absent. -/
def condGet (cond : CondMap) (k : String) : CVal :=
  (cond.lookup k).getD .cnull

/-- `cond.filter`-style removal of a key, used to state "as if the key were
absent". -/
def removeKey (cond : CondMap) (k : String) : CondMap :=
  cond.filter (fun p => p.1 ≠ k)

/-- The validated business profile (`models.BusinessInput`): pydantic
guarantees `size ∈ {small, medium, large}`, non-negative counts and
vocabulary-checked features; the matcher reads the fields only. -/
structure BusinessInput where
  size : String
  seats : Int
  area_sqm : Int
  staff_count : Int
  features : List String
deriving DecidableEq

/-- `matcher.FEATURE_NAMES` — English feature keys to Hebrew names. -/
def FEATURE_NAMES : List (String × String) :=
  [("gas", "גז"),
   ("meat", "בשר"),
   ("delivery", "משלוחים"),
   ("alcohol", "הגשת אלכוהול"),
   ("outdoor", "מקומות ישיבה חיצוניים"),
   ("music", "מוסיקה/בידור"),
   ("smoking", "אזור עישון"),
   ("kitchen_hot", "מטבח חם"),
   ("kitchen_cold", "מטבח קר בלבד"),
   ("dairy", "מזון חלבי"),
   ("fish", "מזון דגים"),
   ("vegan", "טבעוני"),
   ("night", "פתוח אחרי חצות"),
   ("takeaway", "איסוף עצמי"),
   ("grease_trap", "מלכודת שומן"),
   ("hood_vent", "מנדף/מערכת יניקה תקינה"),
   ("fire_ext", "מטפי כיבוי ניידים"),
   ("sprinkler", "מערכת מתזים/ספרינקלרים"),
   ("handwash", "עמדות שטיפת ידיים"),
   ("refrigeration", "קירור מסחרי"),
   ("freezer", "מקפיא/הקפאה"),
   ("allergen_note", "הצהרת אלרגנים בתפריט"),
   ("accessibility", "נגישות לנכים"),
   ("signage", "רישיון ושילוט במקום בולט"),
   ("pest_control", "הדברה תקופתית"),
   ("waste_sep", "הפרדת פסולת/שמן בישול"),
   ("gas_cert", "בדיקת גז בתוקף")]

/-- `matcher.get_feature_names`: map keys through `FEATURE_NAMES`, falling
back to the key itself (`FEATURE_NAMES.get(feature, feature)`). -/
def get_feature_names (features : List String) : List String :=
  features.map (fun f => (FEATURE_NAMES.lookup f).getD f)

/-- The `# size_any` block of `_match_requirements_generator`: one check and
(on success) one reason. -/
def sizeAnyEval (b : BusinessInput) (cond : CondMap) : List Bool × List String :=
  let v := condGet cond "size_any"
  if v.truthy then
    let ok := v.asList.contains b.size
    ([ok],
     if ok then ["סוג העסק \x27" ++ b.size ++ "\x27 נכלל ב-size_any"] else [])
  else ([], [])

/-- One iteration of the numeric-condition loops of
`_match_requirements_generator` (seats / area / staff, min / max).
`label` is the Hebrew noun placed in front of the comparison by the
corresponding f-string ("" for seats, "שטח " for area, "צוות " for staff). -/
def numCondEval (k : String) (isMin : Bool) (label : String) (field : Int)
    (cond : CondMap) : List Bool × List String :=
  let v := condGet cond k
  if v.isNotNone then
    let thr := v.asInt
    let ok := if isMin then decide (field ≥ thr) else decide (field ≤ thr)
    ([ok],
     if ok then
       [label ++ toString field ++ (if isMin then "≥" else "≤") ++
         toString thr ++ " ⇒ " ++ k]
     else [])
  else ([], [])

/-- The `if fa:` block: non-empty intersection, one reason per matched tag
(sorted). `bset` is `set(business.features)`, `fa` is `set(cond.get("features_any", []))`. -/
def featuresAnyEval (bset fa : List String) : List Bool × List String :=
  if !fa.isEmpty then
    let ok := !(bset.filter (fun t => fa.contains t)).isEmpty
    ([ok],
     if ok then
       (get_feature_names (sortTags (bset.filter (fun t => fa.contains t)))).map
         (fun n => "מאפיין זוהה : " ++ n)
     else [])
  else ([], [])

/-- The `if fall:` block: subset test, one reason per required tag (sorted). -/
def featuresAllEval (bset fall : List String) : List Bool × List String :=
  if !fall.isEmpty then
    let ok := fall.all (fun t => bset.contains t)
    ([ok],
     if ok then
       (get_feature_names (sortTags fall)).map (fun n => "מאפיין נדרש : " ++ n)
     else [])
  else ([], [])

/-- The `if fnone:` block: empty intersection, one reason per excluded tag
(sorted). -/
def featuresNoneEval (bset fnone : List String) : List Bool × List String :=
  if !fnone.isEmpty then
    let ok := (bset.filter (fun t => fnone.contains t)).isEmpty
    ([ok],
     if ok then
       (get_feature_names (sortTags fnone)).map
         (fun n => "מאפיין אסור לא קיים : " ++ n)
     else [])
  else ([], [])

/-- The general-rule guard of `_match_requirements_generator`:
`not any([cond.get("size_any"), cond.get("min_seats") is not None, ...,
fa, fall, fnone])`. -/
def noRecognizedCond (cond : CondMap) : Bool :=
  !((condGet cond "size_any").truthy ||
    (condGet cond "min_seats").isNotNone ||
    (condGet cond "max_seats").isNotNone ||
    (condGet cond "min_area_sqm").isNotNone ||
    (condGet cond "max_area_sqm").isNotNone ||
    (condGet cond "min_staff").isNotNone ||
    (condGet cond "max_staff").isNotNone ||
    !(((condGet cond "features_any").asList).dedup).isEmpty ||
    !(((condGet cond "features_all").asList).dedup).isEmpty ||
    !(((condGet cond "features_none").asList).dedup).isEmpty)

/-- The per-rule body of `_match_requirements_generator`: the `checks` and
`reasons` lists accumulated for one rule, in the evaluation order of the source —
size, min/max seats, min/max area, min/max staff, features any/all/none,
then the general-rule fallback. -/
def evalRule (b : BusinessInput) (cond : CondMap) : List Bool × List String :=
  let bset := b.features.dedup
  let fa := ((condGet cond "features_any").asList).dedup
  let fall := ((condGet cond "features_all").asList).dedup
  let fnone := ((condGet cond "features_none").asList).dedup
  let s1 := sizeAnyEval b cond
  let s2 := numCondEval "min_seats" true "" b.seats cond
  let s3 := numCondEval "max_seats" false "" b.seats cond
  let s4 := numCondEval "min_area_sqm" true "שטח " b.area_sqm cond
  let s5 := numCondEval "max_area_sqm" false "שטח " b.area_sqm cond
  let s6 := numCondEval "min_staff" true "צוות " b.staff_count cond
  let s7 := numCondEval "max_staff" false "צוות " b.staff_count cond
  let s8 := featuresAnyEval bset fa
  let s9 := featuresAllEval bset fall
  let s10 := featuresNoneEval bset fnone
  let checks :=
    s1.1 ++ s2.1 ++ s3.1 ++ s4.1 ++ s5.1 ++ s6.1 ++ s7.1 ++ s8.1 ++ s9.1 ++ s10.1
  let reasons :=
    s1.2 ++ s2.2 ++ s3.2 ++ s4.2 ++ s5.2 ++ s6.2 ++ s7.2 ++ s8.2 ++ s9.2 ++ s10.2
  if noRecognizedCond cond then
    (checks ++ [true], reasons ++ ["כללי — ללא תנאים"])
  else (checks, reasons)

/-- `MatchItem` — the record yielded per matched rule.  Modelled from the
spec: `models.MatchItem` is imported by `matcher.py` but absent from the
source tree; its fields follow the keyword arguments of the `yield
MatchItem(...)` call and the MatchResult of spec §3 ("the rule display fields plus
an ordered sequence of reason strings"). -/
structure MatchItem where
  id : String
  category : String
  title : String
  description : String
  priority : String
  reasons : List String
deriving DecidableEq

/-- The `yield MatchItem(...)` call: display fields with `dict.get`
defaults, stripped title falling back to the placeholder, priority
defaulting to `"Medium"`. -/
def mkMatchItem (r_id r_category r_title r_description r_priority :
    Option String) (reasons : List String) : MatchItem :=
  { id := r_id.getD ""
    category := r_category.getD ""
    title :=
      let t := pyStrip (r_title.getD "")
      if t = "" then "(ללא כותרת)" else t
    description := pyStrip (r_description.getD "")
    priority := r_priority.getD "Medium"
    reasons := reasons }

/-- A requirement rule as the matcher consumes it: a dict whose display
fields may be absent (`r.get(..., default)`) and whose `conditions` value
is an open dict, absent meaning `{}`. -/
structure Rule where
  id : Option String
  category : Option String
  title : Option String
  description : Option String
  priority : Option String
  conditions : CondMap
deriving DecidableEq

/-- `_match_requirements_generator`: evaluate every rule, yield a
`MatchItem` when `all(checks)`. -/
def matchGen (b : BusinessInput) (rules : List Rule) : List MatchItem :=
  rules.filterMap (fun r =>
    let res := evalRule b r.conditions
    if res.1.all id then
      some (mkMatchItem r.id r.category r.title r.description r.priority res.2)
    else none)

/-- `priority_order = {"High": 0, "Medium": 1, "Low": 2}`. -/
def priority_order : List (String × Nat) :=
  [("High", 0), ("Medium", 1), ("Low", 2)]

/-- `priority_order[p]`, `none` standing for the `KeyError` case. -/
def priorityRank (p : String) : Option Nat := priority_order.lookup p

/-- Rank actually used while comparing sort keys (only reached when every
rank lookup succeeded, so the default is never observed). -/
def rankD (x : MatchItem) : Nat := (priorityRank x.priority).getD 3

/-- The sort relation of `matched.sort(key=lambda x: (priority_order[x.priority],
x.category, x.title))`: Python tuple order — rank, then category, then
title. -/
def matchKeyLe (x y : MatchItem) : Bool :=
  decide (rankD x < rankD y) ||
  (rankD x == rankD y &&
    (pyStrLt x.category y.category ||
      (x.category == y.category && pyStrLe x.title y.title)))

/-- `matcher.match_requirements`: collect the generator output, then sort
by (priority rank, category, title).  Python computes `priority_order[x.priority]`
for every matched item while decorating the list, so one out-of-enum
priority raises `KeyError` for the whole call — modelled as `Except.error`. -/
def match_requirements (b : BusinessInput) (rules : List Rule) :
    Except String (List MatchItem) :=
  let matched := matchGen b rules
  if matched.all (fun x => (priorityRank x.priority).isSome) then
    .ok (matched.insertionSort (fun x y => matchKeyLe x y = true))
  else
    .error "KeyError"

/-- `models.ALLOWED_FEATURES`. -/
def ALLOWED_FEATURES : List String :=
  ["gas", "meat", "delivery", "alcohol", "outdoor", "music", "smoking",
   "kitchen_hot", "kitchen_cold", "dairy", "fish", "vegan", "night", "takeaway",
   "grease_trap", "hood_vent", "fire_ext", "sprinkler", "handwash",
   "refrigeration", "freezer", "allergen_note", "accessibility", "signage",
   "pest_control", "waste_sep", "gas_cert"]

/-- The `Literal["small", "medium", "large"]` annotation of
`BusinessInput.size`. -/
def sizeLiterals : List String := ["small", "medium", "large"]

/-- The raw, not yet validated input to `models.BusinessInput`:
`area_sqm` and `staff_count` are optional with default 0. -/
structure RawBusinessInput where
  size : String
  seats : Int
  area_sqm : Option Int
  staff_count : Option Int
  features : List String
deriving DecidableEq

/-- A pydantic validation failure of `models.BusinessInput`, structured:
the `Literal` size check, the `ge=0` bounds, and the `validate_features`
validator (which raises naming the offending tags). -/
inductive ValidationError where
  | invalidSize (got : String)
  | negativeSeats (got : Int)
  | negativeArea (got : Int)
  | negativeStaff (got : Int)
  | invalidFeatures (tags : List String)
deriving DecidableEq

/-- The per-field validation failures pydantic collects for a
`models.BusinessInput`, in field declaration order: the `Literal` size
check, the `ge=0` bounds on `seats` / `area_sqm` / `staff_count`, and the
`validate_features` validator.  The `invalidFeatures` error carries
`set(v) - ALLOWED_FEATURES`, the tags interpolated into the raised
`ValueError` message. -/
def validationErrors (raw : RawBusinessInput) : List ValidationError :=
  (if raw.size ∈ sizeLiterals then [] else [ValidationError.invalidSize raw.size])
  ++ (if raw.seats < 0 then [ValidationError.negativeSeats raw.seats] else [])
  ++ (match raw.area_sqm with
      | some a => if a < 0 then [ValidationError.negativeArea a] else []
      | none => [])
  ++ (match raw.staff_count with
      | some s => if s < 0 then [ValidationError.negativeStaff s] else []
      | none => [])
  ++ (let invalid := (raw.features.filter
          (fun t => !ALLOWED_FEATURES.contains t)).dedup
      if invalid.isEmpty then [] else [ValidationError.invalidFeatures invalid])

/-- Construction of `models.BusinessInput`: validation failures are raised
before any matching; on success the optional counts default to 0. -/
def validateBusinessInput (raw : RawBusinessInput) :
    Except (List ValidationError) BusinessInput :=
  if (validationErrors raw).isEmpty then
    .ok { size := raw.size, seats := raw.seats,
          area_sqm := raw.area_sqm.getD 0,
          staff_count := raw.staff_count.getD 0,
          features := raw.features }
  else .error (validationErrors raw)

/-- The ten condition keys the evaluator recognizes, in evaluation order. -/
def RECOGNIZED_KEYS : List String :=
  ["size_any", "min_seats", "max_seats", "min_area_sqm", "max_area_sqm",
   "min_staff", "max_staff", "features_any", "features_all", "features_none"]

/-- Whether a recognized key is "present" for the evaluator: truthy for
`size_any`, non-`None` for the numeric keys, non-empty set for the feature
keys. -/
def keyPresent (cond : CondMap) (k : String) : Bool :=
  match k with
  | "size_any" => (condGet cond "size_any").truthy
  | "min_seats" | "max_seats" | "min_area_sqm" | "max_area_sqm"
  | "min_staff" | "max_staff" => (condGet cond k).isNotNone
  | "features_any" | "features_all" | "features_none" =>
      !(((condGet cond k).asList).dedup).isEmpty
  | _ => false

/-- The individual boolean outcome of one recognized key against a
business, per the comparison the evaluator performs. -/
def keyEval (b : BusinessInput) (cond : CondMap) (k : String) : Bool :=
  match k with
  | "size_any" => (condGet cond "size_any").asList.contains b.size
  | "min_seats" => decide (b.seats ≥ (condGet cond "min_seats").asInt)
  | "max_seats" => decide (b.seats ≤ (condGet cond "max_seats").asInt)
  | "min_area_sqm" => decide (b.area_sqm ≥ (condGet cond "min_area_sqm").asInt)
  | "max_area_sqm" => decide (b.area_sqm ≤ (condGet cond "max_area_sqm").asInt)
  | "min_staff" => decide (b.staff_count ≥ (condGet cond "min_staff").asInt)
  | "max_staff" => decide (b.staff_count ≤ (condGet cond "max_staff").asInt)
  | "features_any" =>
      !((b.features.dedup).filter
        (fun t => (((condGet cond "features_any").asList).dedup).contains t)).isEmpty
  | "features_all" =>
      (((condGet cond "features_all").asList).dedup).all
        (fun t => (b.features.dedup).contains t)
  | "features_none" =>
      ((b.features.dedup).filter
        (fun t => (((condGet cond "features_none").asList).dedup).contains t)).isEmpty
  | _ => false

/-- The outcome of the evaluator for one key: `none` when the key is skipped,
`some ok` when it contributes `ok` to `checks`. -/
def keyOutcome (b : BusinessInput) (cond : CondMap) (k : String) : Option Bool :=
  if keyPresent cond k then some (keyEval b cond k) else none

/-- The reason strings one key contributes to `reasons` (the `.2` component
of the corresponding evaluation block). -/
def keyReasons (b : BusinessInput) (cond : CondMap) (k : String) : List String :=
  match k with
  | "size_any" => (sizeAnyEval b cond).2
  | "min_seats" => (numCondEval "min_seats" true "" b.seats cond).2
  | "max_seats" => (numCondEval "max_seats" false "" b.seats cond).2
  | "min_area_sqm" => (numCondEval "min_area_sqm" true "שטח " b.area_sqm cond).2
  | "max_area_sqm" => (numCondEval "max_area_sqm" false "שטח " b.area_sqm cond).2
  | "min_staff" => (numCondEval "min_staff" true "צוות " b.staff_count cond).2
  | "max_staff" => (numCondEval "max_staff" false "צוות " b.staff_count cond).2
  | "features_any" =>
      (featuresAnyEval b.features.dedup
        ((condGet cond "features_any").asList.dedup)).2
  | "features_all" =>
      (featuresAllEval b.features.dedup
        ((condGet cond "features_all").asList.dedup)).2
  | "features_none" =>
      (featuresNoneEval b.features.dedup
        ((condGet cond "features_none").asList.dedup)).2
  | _ => []

/-- `sorted(list(bset & fa))` — the matched `features_any` tags. -/
def matchedAnyTags (b : BusinessInput) (cond : CondMap) : List String :=
  sortTags (b.features.dedup.filter
    (fun t => ((condGet cond "features_any").asList.dedup).contains t))

/-- `sorted(list(fall))` — the required `features_all` tags. -/
def requiredAllTags (cond : CondMap) : List String :=
  sortTags ((condGet cond "features_all").asList.dedup)

/-- `sorted(list(fnone))` — the excluded `features_none` tags. -/
def excludedNoneTags (cond : CondMap) : List String :=
  sortTags ((condGet cond "features_none").asList.dedup)

/-- Concrete profile used by the witness theorems (the small restaurant of
the self-test of the source). -/
def bMain : BusinessInput :=
  { size := "small", seats := 20, area_sqm := 50, staff_count := 3,
    features := ["meat", "gas"] }

/-- Witness rule with two present condition keys. -/
def rTwoKeys : Rule :=
  { id := some "r1", category := some "cat", title := some "title1",
    description := some "", priority := some "High",
    conditions := [("features_any", CVal.clist ["gas"]),
                   ("min_seats", CVal.cint 10)] }

/-- Witness rule whose conditions carry only an unrecognized key. -/
def rGeneral : Rule :=
  { id := some "r2", category := some "cat", title := some "t2",
    description := some "", priority := some "Low",
    conditions := [("bogus", CVal.cint 7)] }

/-- Rule whose only condition is `max_seats: 0` (a zero-ish falsy value). -/
def rMaxZero : Rule :=
  { id := some "r0", category := some "cat", title := some "t0",
    description := some "", priority := some "Low",
    conditions := [("max_seats", CVal.cint 0)] }

/-- The same rule with the `max_seats` key removed. -/
def rNoConds : Rule :=
  { id := some "r0", category := some "cat", title := some "t0",
    description := some "", priority := some "Low", conditions := [] }

/-- Rule with a whitespace-only title. -/
def rWhitespaceTitle : Rule :=
  { id := some "r3", category := some "c", title := some "   ",
    description := some " x ", priority := some "Medium", conditions := [] }

/-- Rule with no priority field. -/
def rNoPriority : Rule :=
  { id := some "r4", category := some "c", title := some "t",
    description := some "", priority := none, conditions := [] }

/-- Rule with an out-of-enum priority string. -/
def rBadPriority : Rule :=
  { id := some "r5", category := some "c", title := some "t",
    description := some "", priority := some "URGENT", conditions := [] }

/-- Raw input with one feature tag outside the vocabulary. -/
def rawBadFeature : RawBusinessInput :=
  { size := "small", seats := 5, area_sqm := none, staff_count := none,
    features := ["gas", "dragon"] }

/-- Unconditional rule with Low priority (for the sort witness). -/
def rLowPrio : Rule :=
  { id := some "rl", category := some "cat", title := some "a",
    description := some "", priority := some "Low", conditions := [] }

/-- Unconditional rule with High priority (for the sort witness). -/
def rHighPrio : Rule :=
  { id := some "rh", category := some "cat", title := some "b",
    description := some "", priority := some "High", conditions := [] }

deriving instance DecidableEq for Except

theorem charLt_iff {a b : Char} : charLt a b = true ↔ a < b := by
  simp [charLt]

theorem lexLt_irrefl (a : List Char) : lexLt a a = false := by
  induction a with
  | nil => rfl
  | cons x xs ih =>
      simp [lexLt, ih, charLt]

theorem lexLt_trans :
    ∀ {a b c : List Char}, lexLt a b = true → lexLt b c = true →
      lexLt a c = true := by
  intro a
  induction a with
  | nil =>
      intro b c hab hbc
      cases b with
      | nil => cases c with
        | nil => exact hbc
        | cons z zs => simp [lexLt]
      | cons y ys =>
          cases c with
          | nil => simp [lexLt] at hbc
          | cons z zs => simp [lexLt]
  | cons x xs ih =>
      intro b c hab hbc
      cases b with
      | nil => simp [lexLt] at hab
      | cons y ys =>
          cases c with
          | nil => simp [lexLt] at hbc
          | cons z zs =>
              simp only [lexLt, Bool.or_eq_true, Bool.and_eq_true, beq_iff_eq,
                charLt_iff] at hab hbc ⊢
              rcases hab with hxy | ⟨hxy, hxys⟩
              · rcases hbc with hyz | ⟨hyz, _⟩
                · exact Or.inl (lt_trans hxy hyz)
                · exact Or.inl (hyz ▸ hxy)
              · rcases hbc with hyz | ⟨hyz, hyzs⟩
                · exact Or.inl (hxy ▸ hyz)
                · exact Or.inr ⟨hxy.trans hyz, ih hxys hyzs⟩

theorem lexLt_connex :
    ∀ {a b : List Char}, lexLt a b = false → lexLt b a = false → a = b := by
  intro a
  induction a with
  | nil =>
      intro b hab _
      cases b with
      | nil => rfl
      | cons y ys => simp [lexLt] at hab
  | cons x xs ih =>
      intro b hab hba
      cases b with
      | nil => simp [lexLt] at hba
      | cons y ys =>
          simp only [lexLt, Bool.or_eq_false_iff, Bool.and_eq_false_iff,
            charLt, decide_eq_false_iff_not, beq_eq_false_iff_ne,
            ne_eq] at hab hba
          have hxy : x = y := le_antisymm (not_lt.mp hba.1) (not_lt.mp hab.1)
          subst hxy
          rcases hab.2 with h | h
          · exact absurd rfl h
          · rcases hba.2 with h' | h'
            · exact absurd rfl h'
            · exact congrArg (x :: ·) (ih h h')

theorem lexLt_asymm {a b : List Char} (h : lexLt a b = true) :
    lexLt b a = false := by
  by_contra hba
  have hba' : lexLt b a = true := by
    cases hh : lexLt b a with
    | false => exact absurd hh hba
    | true => rfl
  have := lexLt_trans h hba'
  rw [lexLt_irrefl] at this
  exact Bool.false_ne_true this

theorem pyStrLt_connex {a b : String} (hab : pyStrLt a b = false)
    (hba : pyStrLt b a = false) : a = b := by
  have h : a.data = b.data := lexLt_connex hab hba
  cases a; cases b
  exact congrArg String.mk h

theorem pyStrLt_asymm {a b : String} (h : pyStrLt a b = true) :
    pyStrLt b a = false := lexLt_asymm h

theorem pyStrLt_trans {a b c : String} (hab : pyStrLt a b = true)
    (hbc : pyStrLt b c = true) : pyStrLt a c = true :=
  lexLt_trans hab hbc

theorem pyStrLt_or_eq (a b : String) :
    pyStrLt a b = true ∨ a = b ∨ pyStrLt b a = true := by
  cases hab : pyStrLt a b with
  | true => exact Or.inl rfl
  | false =>
    cases hba : pyStrLt b a with
    | true => exact Or.inr (Or.inr rfl)
    | false => exact Or.inr (Or.inl (pyStrLt_connex hab hba))

theorem pyStrLe_total (a b : String) :
    pyStrLe a b = true ∨ pyStrLe b a = true := by
  simp only [pyStrLe, Bool.not_eq_true']
  by_cases h : pyStrLt b a = false
  · exact Or.inl h
  · refine Or.inr ?_
    have h' : lexLt b.data a.data = true := by
      cases hh : pyStrLt b a with
      | false => exact absurd hh h
      | true => exact hh
    exact lexLt_asymm h'

theorem pyStrLe_trans {a b c : String} (hab : pyStrLe a b = true)
    (hbc : pyStrLe b c = true) : pyStrLe a c = true := by
  simp only [pyStrLe, Bool.not_eq_true'] at hab hbc ⊢
  cases hca : pyStrLt c a with
  | false => rfl
  | true =>
    exfalso
    rcases pyStrLt_or_eq a b with h | h | h
    · have hcb : pyStrLt c b = true := pyStrLt_trans hca h
      rw [hbc] at hcb
      exact Bool.false_ne_true hcb
    · rw [h, hbc] at hca
      exact Bool.false_ne_true hca
    · rw [hab] at h
      exact Bool.false_ne_true h

theorem matchKeyLe_total (x y : MatchItem) :
    matchKeyLe x y = true ∨ matchKeyLe y x = true := by
  simp only [matchKeyLe, Bool.or_eq_true, Bool.and_eq_true, beq_iff_eq,
    decide_eq_true_eq]
  rcases Nat.lt_trichotomy (rankD x) (rankD y) with h | h | h
  · exact Or.inl (Or.inl h)
  · by_cases hc : pyStrLt x.category y.category = true
    · exact Or.inl (Or.inr ⟨h, Or.inl hc⟩)
    · by_cases hc' : pyStrLt y.category x.category = true
      · exact Or.inr (Or.inr ⟨h.symm, Or.inl hc'⟩)
      · have hcc : x.category = y.category := by
          refine pyStrLt_connex ?_ ?_
          · cases hh : pyStrLt x.category y.category with
            | false => rfl
            | true => exact absurd hh hc
          · cases hh : pyStrLt y.category x.category with
            | false => rfl
            | true => exact absurd hh hc'
        rcases pyStrLe_total x.title y.title with ht | ht
        · exact Or.inl (Or.inr ⟨h, Or.inr ⟨hcc, ht⟩⟩)
        · exact Or.inr (Or.inr ⟨h.symm, Or.inr ⟨hcc.symm, ht⟩⟩)
  · exact Or.inr (Or.inl h)

theorem matchKeyLe_trans {x y z : MatchItem} (hxy : matchKeyLe x y = true)
    (hyz : matchKeyLe y z = true) : matchKeyLe x z = true := by
  simp only [matchKeyLe, Bool.or_eq_true, Bool.and_eq_true, beq_iff_eq,
    decide_eq_true_eq] at hxy hyz ⊢
  rcases hxy with h1 | ⟨h1, hrest1⟩
  · rcases hyz with h2 | ⟨h2, _⟩
    · exact Or.inl (h1.trans h2)
    · exact Or.inl (h2 ▸ h1)
  · rcases hyz with h2 | ⟨h2, hrest2⟩
    · exact Or.inl (h1 ▸ h2)
    · refine Or.inr ⟨h1.trans h2, ?_⟩
      rcases hrest1 with hc1 | ⟨hc1, ht1⟩
      · rcases hrest2 with hc2 | ⟨hc2, _⟩
        · exact Or.inl (pyStrLt_trans hc1 hc2)
        · exact Or.inl (hc2 ▸ hc1)
      · rcases hrest2 with hc2 | ⟨hc2, ht2⟩
        · exact Or.inl (hc1 ▸ hc2)
        · exact Or.inr ⟨hc1.trans hc2, pyStrLe_trans ht1 ht2⟩

theorem filterMap_cons_toList {α β : Type} (f : α → Option β) (a : α)
    (l : List α) :
    List.filterMap f (a :: l) = (f a).toList ++ List.filterMap f l := by
  cases h : f a <;> simp [List.filterMap_cons, h]

theorem sizeAnyEval_checks (b : BusinessInput) (cond : CondMap) :
    (sizeAnyEval b cond).1 = (keyOutcome b cond "size_any").toList := by
  have hk : keyOutcome b cond "size_any" =
      if (condGet cond "size_any").truthy then
        some ((condGet cond "size_any").asList.contains b.size)
      else none := rfl
  rw [hk]; unfold sizeAnyEval
  by_cases h : (condGet cond "size_any").truthy <;> simp [h]

theorem minSeats_checks (b : BusinessInput) (cond : CondMap) :
    (numCondEval "min_seats" true "" b.seats cond).1 =
      (keyOutcome b cond "min_seats").toList := by
  have hk : keyOutcome b cond "min_seats" =
      if (condGet cond "min_seats").isNotNone then
        some (decide (b.seats ≥ (condGet cond "min_seats").asInt))
      else none := rfl
  rw [hk]; unfold numCondEval
  by_cases h : (condGet cond "min_seats").isNotNone <;> simp [h]

theorem maxSeats_checks (b : BusinessInput) (cond : CondMap) :
    (numCondEval "max_seats" false "" b.seats cond).1 =
      (keyOutcome b cond "max_seats").toList := by
  have hk : keyOutcome b cond "max_seats" =
      if (condGet cond "max_seats").isNotNone then
        some (decide (b.seats ≤ (condGet cond "max_seats").asInt))
      else none := rfl
  rw [hk]; unfold numCondEval
  by_cases h : (condGet cond "max_seats").isNotNone <;> simp [h]

theorem minArea_checks (b : BusinessInput) (cond : CondMap) :
    (numCondEval "min_area_sqm" true "שטח " b.area_sqm cond).1 =
      (keyOutcome b cond "min_area_sqm").toList := by
  have hk : keyOutcome b cond "min_area_sqm" =
      if (condGet cond "min_area_sqm").isNotNone then
        some (decide (b.area_sqm ≥ (condGet cond "min_area_sqm").asInt))
      else none := rfl
  rw [hk]; unfold numCondEval
  by_cases h : (condGet cond "min_area_sqm").isNotNone <;> simp [h]

theorem maxArea_checks (b : BusinessInput) (cond : CondMap) :
    (numCondEval "max_area_sqm" false "שטח " b.area_sqm cond).1 =
      (keyOutcome b cond "max_area_sqm").toList := by
  have hk : keyOutcome b cond "max_area_sqm" =
      if (condGet cond "max_area_sqm").isNotNone then
        some (decide (b.area_sqm ≤ (condGet cond "max_area_sqm").asInt))
      else none := rfl
  rw [hk]; unfold numCondEval
  by_cases h : (condGet cond "max_area_sqm").isNotNone <;> simp [h]

theorem minStaff_checks (b : BusinessInput) (cond : CondMap) :
    (numCondEval "min_staff" true "צוות " b.staff_count cond).1 =
      (keyOutcome b cond "min_staff").toList := by
  have hk : keyOutcome b cond "min_staff" =
      if (condGet cond "min_staff").isNotNone then
        some (decide (b.staff_count ≥ (condGet cond "min_staff").asInt))
      else none := rfl
  rw [hk]; unfold numCondEval
  by_cases h : (condGet cond "min_staff").isNotNone <;> simp [h]

theorem maxStaff_checks (b : BusinessInput) (cond : CondMap) :
    (numCondEval "max_staff" false "צוות " b.staff_count cond).1 =
      (keyOutcome b cond "max_staff").toList := by
  have hk : keyOutcome b cond "max_staff" =
      if (condGet cond "max_staff").isNotNone then
        some (decide (b.staff_count ≤ (condGet cond "max_staff").asInt))
      else none := rfl
  rw [hk]; unfold numCondEval
  by_cases h : (condGet cond "max_staff").isNotNone <;> simp [h]

theorem featuresAny_checks (b : BusinessInput) (cond : CondMap) :
    (featuresAnyEval b.features.dedup
      ((condGet cond "features_any").asList.dedup)).1 =
      (keyOutcome b cond "features_any").toList := by
  have hk : keyOutcome b cond "features_any" =
      if !((condGet cond "features_any").asList.dedup).isEmpty then
        some (!(b.features.dedup.filter
          (fun t => ((condGet cond "features_any").asList.dedup).contains t)).isEmpty)
      else none := rfl
  rw [hk]; unfold featuresAnyEval
  by_cases h : !((condGet cond "features_any").asList.dedup).isEmpty <;>
    simp [h]

theorem featuresAll_checks (b : BusinessInput) (cond : CondMap) :
    (featuresAllEval b.features.dedup
      ((condGet cond "features_all").asList.dedup)).1 =
      (keyOutcome b cond "features_all").toList := by
  have hk : keyOutcome b cond "features_all" =
      if !((condGet cond "features_all").asList.dedup).isEmpty then
        some (((condGet cond "features_all").asList.dedup).all
          (fun t => b.features.dedup.contains t))
      else none := rfl
  rw [hk]; unfold featuresAllEval
  by_cases h : !((condGet cond "features_all").asList.dedup).isEmpty <;>
    simp [h]

theorem featuresNone_checks (b : BusinessInput) (cond : CondMap) :
    (featuresNoneEval b.features.dedup
      ((condGet cond "features_none").asList.dedup)).1 =
      (keyOutcome b cond "features_none").toList := by
  have hk : keyOutcome b cond "features_none" =
      if !((condGet cond "features_none").asList.dedup).isEmpty then
        some ((b.features.dedup.filter
          (fun t => ((condGet cond "features_none").asList.dedup).contains t)).isEmpty)
      else none := rfl
  rw [hk]; unfold featuresNoneEval
  by_cases h : !((condGet cond "features_none").asList.dedup).isEmpty <;>
    simp [h]

/-- The `checks` list of one rule is exactly the sequence of individual
key outcomes over the recognized keys, plus the general-rule `True` when
no key was present. -/
theorem evalRule_checks (b : BusinessInput) (cond : CondMap) :
    (evalRule b cond).1 =
      RECOGNIZED_KEYS.filterMap (keyOutcome b cond) ++
        (if noRecognizedCond cond then [true] else []) := by
  unfold evalRule
  rw [RECOGNIZED_KEYS]
  rw [filterMap_cons_toList, filterMap_cons_toList, filterMap_cons_toList,
    filterMap_cons_toList, filterMap_cons_toList, filterMap_cons_toList,
    filterMap_cons_toList, filterMap_cons_toList, filterMap_cons_toList,
    filterMap_cons_toList]
  rw [← sizeAnyEval_checks b cond, ← minSeats_checks b cond,
    ← maxSeats_checks b cond, ← minArea_checks b cond,
    ← maxArea_checks b cond, ← minStaff_checks b cond,
    ← maxStaff_checks b cond, ← featuresAny_checks b cond,
    ← featuresAll_checks b cond, ← featuresNone_checks b cond]
  by_cases h : noRecognizedCond cond <;> simp [h, List.append_assoc]

theorem keyPresent_size_any (cond : CondMap) :
    keyPresent cond "size_any" = (condGet cond "size_any").truthy := rfl

theorem keyPresent_min_seats (cond : CondMap) :
    keyPresent cond "min_seats" = (condGet cond "min_seats").isNotNone := rfl

theorem keyPresent_max_seats (cond : CondMap) :
    keyPresent cond "max_seats" = (condGet cond "max_seats").isNotNone := rfl

theorem keyPresent_min_area (cond : CondMap) :
    keyPresent cond "min_area_sqm" = (condGet cond "min_area_sqm").isNotNone := rfl

theorem keyPresent_max_area (cond : CondMap) :
    keyPresent cond "max_area_sqm" = (condGet cond "max_area_sqm").isNotNone := rfl

theorem keyPresent_min_staff (cond : CondMap) :
    keyPresent cond "min_staff" = (condGet cond "min_staff").isNotNone := rfl

theorem keyPresent_max_staff (cond : CondMap) :
    keyPresent cond "max_staff" = (condGet cond "max_staff").isNotNone := rfl

theorem keyPresent_features_any (cond : CondMap) :
    keyPresent cond "features_any" =
      !((condGet cond "features_any").asList.dedup).isEmpty := rfl

theorem keyPresent_features_all (cond : CondMap) :
    keyPresent cond "features_all" =
      !((condGet cond "features_all").asList.dedup).isEmpty := rfl

theorem keyPresent_features_none (cond : CondMap) :
    keyPresent cond "features_none" =
      !((condGet cond "features_none").asList.dedup).isEmpty := rfl

/-- The general-rule guard fires exactly when no recognized key is
present. -/
theorem noRecognizedCond_iff (cond : CondMap) :
    noRecognizedCond cond = true ↔
      ∀ k ∈ RECOGNIZED_KEYS, keyPresent cond k = false := by
  simp only [RECOGNIZED_KEYS, List.forall_mem_cons, List.forall_mem_nil,
    and_true, keyPresent_size_any, keyPresent_min_seats, keyPresent_max_seats,
    keyPresent_min_area, keyPresent_max_area, keyPresent_min_staff,
    keyPresent_max_staff, keyPresent_features_any, keyPresent_features_all,
    keyPresent_features_none, noRecognizedCond]
  simp [Bool.not_eq_true', Bool.or_eq_false_iff, and_assoc]

/-- `all(checks)` holds iff every present recognized key evaluated to
true (vacuously so under the general-rule fallback). -/
theorem evalRule_matched_iff (b : BusinessInput) (cond : CondMap) :
    (evalRule b cond).1.all id = true ↔
      ∀ k ∈ RECOGNIZED_KEYS, keyPresent cond k = true →
        keyEval b cond k = true := by
  rw [evalRule_checks, List.all_append]
  have h2 : ((if noRecognizedCond cond then [true] else []).all id) = true := by
    by_cases h : noRecognizedCond cond <;> simp [h]
  rw [h2, Bool.and_true]
  simp only [List.all_eq_true, List.mem_filterMap, keyOutcome, id]
  constructor
  · intro h k hk hp
    exact h (keyEval b cond k) ⟨k, hk, by rw [if_pos hp]⟩
  · rintro h x ⟨k, hk, hkx⟩
    by_cases hp : keyPresent cond k = true
    · rw [if_pos hp] at hkx
      cases hkx
      exact h k hk hp
    · rw [if_neg hp] at hkx
      cases hkx

/-- The generator over a one-rule catalog. -/
theorem matchGen_singleton (b : BusinessInput) (r : Rule) :
    matchGen b [r] =
      if (evalRule b r.conditions).1.all id then
        [mkMatchItem r.id r.category r.title r.description r.priority
          (evalRule b r.conditions).2]
      else [] := by
  by_cases h : (evalRule b r.conditions).1.all id <;>
    simp [matchGen, List.filterMap, h]

/-- The generator walks the catalog rule by rule: splitting the catalog
splits the output — no rule can abort the scan for the others. -/
theorem matchGen_append (b : BusinessInput) (l1 l2 : List Rule) :
    matchGen b (l1 ++ l2) = matchGen b l1 ++ matchGen b l2 :=
  List.filterMap_append l1 l2 _

/-- Claim C1: for a rule whose conditions define more than one recognized
key, the rule is included in the generator output iff the individual
predicate of every present key holds of the profile (the match is the
conjunction of the individual outcomes), and any one present key that
evaluates to false forces the rule out of the result. -/
theorem C1_conjunction (b : BusinessInput) (r : Rule)
    (_h2 : 2 ≤ (RECOGNIZED_KEYS.filter
      (fun k => keyPresent r.conditions k)).length) :
    (matchGen b [r] ≠ [] ↔
      ∀ k ∈ RECOGNIZED_KEYS, keyPresent r.conditions k = true →
        keyEval b r.conditions k = true) ∧
    (∀ k ∈ RECOGNIZED_KEYS, keyPresent r.conditions k = true →
      keyEval b r.conditions k = false → matchGen b [r] = []) := by
  have hm : (matchGen b [r] ≠ []) ↔
      (evalRule b r.conditions).1.all id = true := by
    rw [matchGen_singleton]
    by_cases h : (evalRule b r.conditions).1.all id <;> simp [h]
  constructor
  · rw [hm]
    exact evalRule_matched_iff b r.conditions
  · intro k hk hp hf
    rw [matchGen_singleton, if_neg]
    intro hall
    have := (evalRule_matched_iff b r.conditions).mp hall k hk hp
    rw [hf] at this
    exact Bool.false_ne_true this

/-- Witness for C1 at the small-restaurant profile and a two-key rule. -/
theorem C1_conjunction_witness :
    2 ≤ (RECOGNIZED_KEYS.filter
      (fun k => keyPresent rTwoKeys.conditions k)).length ∧
    matchGen bMain [rTwoKeys] ≠ [] := by
  refine ⟨by decide, ?_⟩
  exact (C1_conjunction bMain rTwoKeys (by decide)).1.mpr (by decide)

/-- Claim C4: a rule whose conditions define no recognized key (the
general-rule guard fires) matches every profile, and its result carries
exactly the single general-rule reason string. -/
theorem C4_general_rule (b : BusinessInput) (r : Rule)
    (h : noRecognizedCond r.conditions = true) :
    matchGen b [r] =
      [mkMatchItem r.id r.category r.title r.description r.priority
        ["כללי — ללא תנאים"]] := by
  have habs := (noRecognizedCond_iff r.conditions).mp h
  have h1 : (condGet r.conditions "size_any").truthy = false := by
    have := habs "size_any" (by decide)
    rwa [keyPresent_size_any] at this
  have h2 : (condGet r.conditions "min_seats").isNotNone = false := by
    have := habs "min_seats" (by decide)
    rwa [keyPresent_min_seats] at this
  have h3 : (condGet r.conditions "max_seats").isNotNone = false := by
    have := habs "max_seats" (by decide)
    rwa [keyPresent_max_seats] at this
  have h4 : (condGet r.conditions "min_area_sqm").isNotNone = false := by
    have := habs "min_area_sqm" (by decide)
    rwa [keyPresent_min_area] at this
  have h5 : (condGet r.conditions "max_area_sqm").isNotNone = false := by
    have := habs "max_area_sqm" (by decide)
    rwa [keyPresent_max_area] at this
  have h6 : (condGet r.conditions "min_staff").isNotNone = false := by
    have := habs "min_staff" (by decide)
    rwa [keyPresent_min_staff] at this
  have h7 : (condGet r.conditions "max_staff").isNotNone = false := by
    have := habs "max_staff" (by decide)
    rwa [keyPresent_max_staff] at this
  have h8 : (!((condGet r.conditions "features_any").asList.dedup).isEmpty) = false := by
    have := habs "features_any" (by decide)
    rwa [keyPresent_features_any] at this
  have h9 : (!((condGet r.conditions "features_all").asList.dedup).isEmpty) = false := by
    have := habs "features_all" (by decide)
    rwa [keyPresent_features_all] at this
  have h10 : (!((condGet r.conditions "features_none").asList.dedup).isEmpty) = false := by
    have := habs "features_none" (by decide)
    rwa [keyPresent_features_none] at this
  have he : evalRule b r.conditions = ([true], ["כללי — ללא תנאים"]) := by
    unfold evalRule sizeAnyEval numCondEval featuresAnyEval featuresAllEval
      featuresNoneEval
    simp only [h1, h2, h3, h4, h5, h6, h7, h8, h9, h10, h, if_true, if_false,
      Bool.false_eq_true, ite_true, ite_false]
    simp
  rw [matchGen_singleton, he]
  simp

/-- Witness for C4: a rule carrying only an unrecognized condition key is
general and yields the single general-rule reason. -/
theorem C4_general_rule_witness :
    matchGen bMain [rGeneral] =
      [mkMatchItem rGeneral.id rGeneral.category rGeneral.title
        rGeneral.description rGeneral.priority ["כללי — ללא תנאים"]] :=
  C4_general_rule bMain rGeneral (by decide)

/-- Claim C5: all six numeric conditions compare inclusively — a count
equal to the threshold satisfies both the `min_*` and the `max_*` form,
and a one-off count in the strict direction fails it. -/
theorem C5_inclusive_bounds (b : BusinessInput) (N : Int) (_hN : 0 ≤ N) :
    keyOutcome { b with seats := N } [("min_seats", CVal.cint N)]
        "min_seats" = some true ∧
    keyOutcome { b with seats := N } [("min_seats", CVal.cint (N + 1))]
        "min_seats" = some false ∧
    keyOutcome { b with seats := N } [("max_seats", CVal.cint N)]
        "max_seats" = some true ∧
    keyOutcome { b with seats := N + 1 } [("max_seats", CVal.cint N)]
        "max_seats" = some false ∧
    keyOutcome { b with area_sqm := N } [("min_area_sqm", CVal.cint N)]
        "min_area_sqm" = some true ∧
    keyOutcome { b with area_sqm := N } [("min_area_sqm", CVal.cint (N + 1))]
        "min_area_sqm" = some false ∧
    keyOutcome { b with area_sqm := N } [("max_area_sqm", CVal.cint N)]
        "max_area_sqm" = some true ∧
    keyOutcome { b with area_sqm := N + 1 } [("max_area_sqm", CVal.cint N)]
        "max_area_sqm" = some false ∧
    keyOutcome { b with staff_count := N } [("min_staff", CVal.cint N)]
        "min_staff" = some true ∧
    keyOutcome { b with staff_count := N } [("min_staff", CVal.cint (N + 1))]
        "min_staff" = some false ∧
    keyOutcome { b with staff_count := N } [("max_staff", CVal.cint N)]
        "max_staff" = some true ∧
    keyOutcome { b with staff_count := N + 1 } [("max_staff", CVal.cint N)]
        "max_staff" = some false := by
  refine ⟨?_, ?_, ?_, ?_, ?_, ?_, ?_, ?_, ?_, ?_, ?_, ?_⟩ <;>
    · simp only [keyOutcome, keyPresent, keyEval, condGet, List.lookup,
        beq_self_eq_true, Option.getD_some, CVal.isNotNone, CVal.asInt,
        if_true, reduceIte, Option.some.injEq]
      simp only [decide_eq_true_eq, decide_eq_false_iff_not, ge_iff_le,
        not_le]
      omega

/-- Witness for C5 at threshold 7. -/
theorem C5_inclusive_bounds_witness :
    keyOutcome { bMain with seats := 7 } [("min_seats", CVal.cint 7)]
      "min_seats" = some true :=
  (C5_inclusive_bounds bMain 7 (by decide)).1

/-- Claim C6: the set-valued conditions follow exact set semantics over
string tags — `features_any` holds iff the intersection of the business
features with the declared set is non-empty, `features_all` iff the
declared set is contained in the features, `features_none` iff the
intersection is empty, and `size_any` iff the size of the business is an
element of the declared set (membership is plain string equality). -/
theorem C6_set_semantics (b : BusinessInput) (l : List String)
    (hl : l ≠ []) :
    (keyOutcome b [("features_any", CVal.clist l)] "features_any" =
        some true ↔ ∃ t ∈ l, t ∈ b.features) ∧
    (keyOutcome b [("features_all", CVal.clist l)] "features_all" =
        some true ↔ ∀ t ∈ l, t ∈ b.features) ∧
    (keyOutcome b [("features_none", CVal.clist l)] "features_none" =
        some true ↔ ∀ t ∈ l, t ∉ b.features) ∧
    (keyOutcome b [("size_any", CVal.clist l)] "size_any" =
        some true ↔ b.size ∈ l) := by
  have hd : (l.dedup.isEmpty) = false := by
    cases hh : l.dedup.isEmpty with
    | false => rfl
    | true =>
        exact absurd ((List.dedup_eq_nil l).mp (List.isEmpty_iff.mp hh)) hl
  have hle : (l.isEmpty) = false := by
    cases hh : l.isEmpty with
    | false => rfl
    | true => exact absurd (List.isEmpty_iff.mp hh) hl
  refine ⟨?_, ?_, ?_, ?_⟩
  · have hu : keyOutcome b [("features_any", CVal.clist l)] "features_any" =
        if !(l.dedup.isEmpty) then
          some (!(b.features.dedup.filter
            (fun t => (l.dedup).contains t)).isEmpty)
        else none := rfl
    rw [hu, hd]
    simp only [Bool.not_false, if_true, Option.some.injEq]
    simp only [Bool.not_eq_true', List.isEmpty_eq_false, Ne,
      List.filter_eq_nil_iff, List.mem_dedup, List.elem_iff, not_forall]
    constructor
    · rintro ⟨t, htb, htl⟩
      exact ⟨t, not_not.mp htl, htb⟩
    · rintro ⟨t, htl, htb⟩
      exact ⟨t, htb, not_not.mpr htl⟩
  · have hu : keyOutcome b [("features_all", CVal.clist l)] "features_all" =
        if !(l.dedup.isEmpty) then
          some ((l.dedup).all (fun t => b.features.dedup.contains t))
        else none := rfl
    rw [hu, hd]
    simp only [Bool.not_false, if_true, Option.some.injEq]
    simp [List.all_eq_true, List.mem_dedup]
  · have hu : keyOutcome b [("features_none", CVal.clist l)] "features_none" =
        if !(l.dedup.isEmpty) then
          some ((b.features.dedup.filter
            (fun t => (l.dedup).contains t)).isEmpty)
        else none := rfl
    rw [hu, hd]
    simp only [Bool.not_false, if_true, Option.some.injEq]
    simp only [List.isEmpty_iff, List.filter_eq_nil_iff, List.mem_dedup,
      List.elem_iff]
    constructor
    · intro h t htl htb
      exact h t htb htl
    · intro h t htb htl
      exact h t htl htb
  · have hu : keyOutcome b [("size_any", CVal.clist l)] "size_any" =
        if !(l.isEmpty) then some (l.contains b.size) else none := rfl
    rw [hu, hle]
    simp [List.elem_iff]

/-- Witness for C6: profile with features and a two-tag declared set. -/
theorem C6_set_semantics_witness :
    keyOutcome bMain [("features_any", CVal.clist ["gas", "alcohol"])]
      "features_any" = some true :=
  (C6_set_semantics bMain ["gas", "alcohol"] (by decide)).1.mpr (by decide)

/-- Claim C3: whenever `match_requirements` returns a result list, that
list is sorted by the composite key — priority rank (High, Medium, Low),
then category, then title, both lexicographically ascending — and the
function is deterministic: the same inputs give the same output. -/
theorem C3_sort_contract (b : BusinessInput) (rules : List Rule)
    (l : List MatchItem) (h : match_requirements b rules = .ok l) :
    List.Pairwise (fun x y => matchKeyLe x y = true) l ∧
    match_requirements b rules = match_requirements b rules := by
  refine ⟨?_, rfl⟩
  unfold match_requirements at h
  by_cases hall : (matchGen b rules).all
      (fun x => (priorityRank x.priority).isSome)
  · rw [if_pos hall] at h
    cases h
    haveI ht : IsTrans MatchItem (fun x y => matchKeyLe x y = true) :=
      ⟨fun _ _ _ hab hbc => matchKeyLe_trans hab hbc⟩
    haveI htot : IsTotal MatchItem (fun x y => matchKeyLe x y = true) :=
      ⟨matchKeyLe_total⟩
    exact List.sorted_insertionSort _ (matchGen b rules)
  · rw [if_neg hall] at h
    cases h

/-- Witness for C3: a two-rule catalog sorted High before Low. -/
theorem C3_sort_contract_witness :
    List.Pairwise (fun x y => matchKeyLe x y = true)
      [mkMatchItem rHighPrio.id rHighPrio.category rHighPrio.title
         rHighPrio.description rHighPrio.priority ["כללי — ללא תנאים"],
       mkMatchItem rLowPrio.id rLowPrio.category rLowPrio.title
         rLowPrio.description rLowPrio.priority ["כללי — ללא תנאים"]] :=
  (C3_sort_contract bMain [rLowPrio, rHighPrio] _ (by decide)).1

theorem sortTags_sorted (l : List String) :
    List.Pairwise (fun a b => pyStrLe a b = true) (sortTags l) := by
  haveI : IsTrans String (fun a b => pyStrLe a b = true) :=
    ⟨fun _ _ _ hab hbc => pyStrLe_trans hab hbc⟩
  haveI : IsTotal String (fun a b => pyStrLe a b = true) :=
    ⟨pyStrLe_total⟩
  exact List.sorted_insertionSort _ l

theorem sortTags_perm (l : List String) : (sortTags l).Perm l :=
  List.perm_insertionSort _ l

theorem sortTags_ne_nil {l : List String} (h : l ≠ []) : sortTags l ≠ [] := by
  intro hc
  apply h
  have hp := sortTags_perm l
  rw [hc] at hp
  exact hp.nil_eq.symm

theorem keyReasons_size_any (b : BusinessInput) (cond : CondMap) :
    keyReasons b cond "size_any" = (sizeAnyEval b cond).2 := rfl

theorem keyReasons_features_any (b : BusinessInput) (cond : CondMap) :
    keyReasons b cond "features_any" =
      (featuresAnyEval b.features.dedup
        ((condGet cond "features_any").asList.dedup)).2 := rfl

theorem keyReasons_features_all (b : BusinessInput) (cond : CondMap) :
    keyReasons b cond "features_all" =
      (featuresAllEval b.features.dedup
        ((condGet cond "features_all").asList.dedup)).2 := rfl

theorem keyReasons_features_none (b : BusinessInput) (cond : CondMap) :
    keyReasons b cond "features_none" =
      (featuresNoneEval b.features.dedup
        ((condGet cond "features_none").asList.dedup)).2 := rfl

/-- The `reasons` list of one rule decomposes into the per-key reason
segments in the evaluation order of the source, with the general-rule reason
(if any) at the end. -/
theorem evalRule_reasons (b : BusinessInput) (cond : CondMap) :
    (evalRule b cond).2 =
      keyReasons b cond "size_any" ++ keyReasons b cond "min_seats" ++
      keyReasons b cond "max_seats" ++ keyReasons b cond "min_area_sqm" ++
      keyReasons b cond "max_area_sqm" ++ keyReasons b cond "min_staff" ++
      keyReasons b cond "max_staff" ++ keyReasons b cond "features_any" ++
      keyReasons b cond "features_all" ++ keyReasons b cond "features_none" ++
      (if noRecognizedCond cond then ["כללי — ללא תנאים"] else []) := by
  have k1 : keyReasons b cond "size_any" = (sizeAnyEval b cond).2 := rfl
  have k2 : keyReasons b cond "min_seats" =
      (numCondEval "min_seats" true "" b.seats cond).2 := rfl
  have k3 : keyReasons b cond "max_seats" =
      (numCondEval "max_seats" false "" b.seats cond).2 := rfl
  have k4 : keyReasons b cond "min_area_sqm" =
      (numCondEval "min_area_sqm" true "שטח " b.area_sqm cond).2 := rfl
  have k5 : keyReasons b cond "max_area_sqm" =
      (numCondEval "max_area_sqm" false "שטח " b.area_sqm cond).2 := rfl
  have k6 : keyReasons b cond "min_staff" =
      (numCondEval "min_staff" true "צוות " b.staff_count cond).2 := rfl
  have k7 : keyReasons b cond "max_staff" =
      (numCondEval "max_staff" false "צוות " b.staff_count cond).2 := rfl
  rw [k1, k2, k3, k4, k5, k6, k7, keyReasons_features_any,
    keyReasons_features_all, keyReasons_features_none]
  unfold evalRule
  by_cases h : noRecognizedCond cond <;> simp [h, List.append_assoc]

/-- Every present (and, under a match, satisfied) key contributes at
least one reason string. -/
theorem keyReasons_ne_nil (b : BusinessInput) (cond : CondMap) (k : String)
    (hk : k ∈ RECOGNIZED_KEYS) (hp : keyPresent cond k = true)
    (he : keyEval b cond k = true) : keyReasons b cond k ≠ [] := by
  have hmem : k = "size_any" ∨ k = "min_seats" ∨ k = "max_seats" ∨
      k = "min_area_sqm" ∨ k = "max_area_sqm" ∨ k = "min_staff" ∨
      k = "max_staff" ∨ k = "features_any" ∨ k = "features_all" ∨
      k = "features_none" := by
    simpa [RECOGNIZED_KEYS] using hk
  rcases hmem with h | h | h | h | h | h | h | h | h | h <;> subst h
  · rw [keyPresent_size_any] at hp
    have he' : (condGet cond "size_any").asList.contains b.size = true := he
    rw [keyReasons_size_any]
    unfold sizeAnyEval
    simp [hp, he', List.elem_iff.mp he']
  · rw [keyPresent_min_seats] at hp
    have he' : decide (b.seats ≥ (condGet cond "min_seats").asInt) = true := he
    show (numCondEval "min_seats" true "" b.seats cond).2 ≠ []
    unfold numCondEval
    simp [hp, he']
  · rw [keyPresent_max_seats] at hp
    have he' : decide (b.seats ≤ (condGet cond "max_seats").asInt) = true := he
    show (numCondEval "max_seats" false "" b.seats cond).2 ≠ []
    unfold numCondEval
    simp [hp, he']
  · rw [keyPresent_min_area] at hp
    have he' : decide (b.area_sqm ≥ (condGet cond "min_area_sqm").asInt) = true := he
    show (numCondEval "min_area_sqm" true "שטח " b.area_sqm cond).2 ≠ []
    unfold numCondEval
    simp [hp, he']
  · rw [keyPresent_max_area] at hp
    have he' : decide (b.area_sqm ≤ (condGet cond "max_area_sqm").asInt) = true := he
    show (numCondEval "max_area_sqm" false "שטח " b.area_sqm cond).2 ≠ []
    unfold numCondEval
    simp [hp, he']
  · rw [keyPresent_min_staff] at hp
    have he' : decide (b.staff_count ≥ (condGet cond "min_staff").asInt) = true := he
    show (numCondEval "min_staff" true "צוות " b.staff_count cond).2 ≠ []
    unfold numCondEval
    simp [hp, he']
  · rw [keyPresent_max_staff] at hp
    have he' : decide (b.staff_count ≤ (condGet cond "max_staff").asInt) = true := he
    show (numCondEval "max_staff" false "צוות " b.staff_count cond).2 ≠ []
    unfold numCondEval
    simp [hp, he']
  · rw [keyPresent_features_any] at hp
    have he' : (!(b.features.dedup.filter
        (fun t => ((condGet cond "features_any").asList.dedup).contains t)).isEmpty)
        = true := he
    rw [keyReasons_features_any]
    unfold featuresAnyEval
    rw [if_pos hp]
    simp only [he', if_true, reduceIte, ne_eq, List.map_eq_nil_iff,
      get_feature_names]
    intro hnil
    have hfil : (b.features.dedup.filter
        (fun t => ((condGet cond "features_any").asList.dedup).contains t)) ≠ [] := by
      rw [Bool.not_eq_true'] at he'
      exact List.isEmpty_eq_false.mp he'
    exact sortTags_ne_nil hfil hnil
  · rw [keyPresent_features_all] at hp
    have he' : ((condGet cond "features_all").asList.dedup).all
        (fun t => b.features.dedup.contains t) = true := he
    rw [keyReasons_features_all]
    unfold featuresAllEval
    rw [if_pos hp]
    simp only [he', if_true, reduceIte, ne_eq, List.map_eq_nil_iff,
      get_feature_names]
    intro hnil
    have hfil : (condGet cond "features_all").asList.dedup ≠ [] := by
      rw [Bool.not_eq_true'] at hp
      exact List.isEmpty_eq_false.mp hp
    exact sortTags_ne_nil hfil hnil
  · rw [keyPresent_features_none] at hp
    have he' : (b.features.dedup.filter
        (fun t => ((condGet cond "features_none").asList.dedup).contains t)).isEmpty
        = true := he
    rw [keyReasons_features_none]
    unfold featuresNoneEval
    rw [if_pos hp]
    simp only [he', if_true, reduceIte, ne_eq, List.map_eq_nil_iff,
      get_feature_names]
    intro hnil
    have hfil : (condGet cond "features_none").asList.dedup ≠ [] := by
      rw [Bool.not_eq_true'] at hp
      exact List.isEmpty_eq_false.mp hp
    exact sortTags_ne_nil hfil hnil

/-- Claim C7: the reasons of a matched rule are non-empty; they are laid out
in the fixed evaluation order (size, seats, area, staff, features
any/all/none, general fallback); every present — hence satisfied — key
contributes at least one reason; and each feature-set key contributes one
reason per matched/required/excluded tag, over tags sorted ascending. -/
theorem C7_reason_structure (b : BusinessInput) (cond : CondMap)
    (h : (evalRule b cond).1.all id = true) :
    (evalRule b cond).2 ≠ [] ∧
    (evalRule b cond).2 =
      keyReasons b cond "size_any" ++ keyReasons b cond "min_seats" ++
      keyReasons b cond "max_seats" ++ keyReasons b cond "min_area_sqm" ++
      keyReasons b cond "max_area_sqm" ++ keyReasons b cond "min_staff" ++
      keyReasons b cond "max_staff" ++ keyReasons b cond "features_any" ++
      keyReasons b cond "features_all" ++ keyReasons b cond "features_none" ++
      (if noRecognizedCond cond then ["כללי — ללא תנאים"] else []) ∧
    (∀ k ∈ RECOGNIZED_KEYS, keyPresent cond k = true →
      keyReasons b cond k ≠ []) ∧
    (keyPresent cond "features_any" = true →
      keyReasons b cond "features_any" =
        (get_feature_names (matchedAnyTags b cond)).map
          (fun n => "מאפיין זוהה : " ++ n) ∧
      List.Pairwise (fun a c => pyStrLe a c = true) (matchedAnyTags b cond)) ∧
    (keyPresent cond "features_all" = true →
      keyReasons b cond "features_all" =
        (get_feature_names (requiredAllTags cond)).map
          (fun n => "מאפיין נדרש : " ++ n) ∧
      List.Pairwise (fun a c => pyStrLe a c = true) (requiredAllTags cond)) ∧
    (keyPresent cond "features_none" = true →
      keyReasons b cond "features_none" =
        (get_feature_names (excludedNoneTags cond)).map
          (fun n => "מאפיין אסור לא קיים : " ++ n) ∧
      List.Pairwise (fun a c => pyStrLe a c = true) (excludedNoneTags cond)) := by
  have hsat := (evalRule_matched_iff b cond).mp h
  have hne : ∀ k ∈ RECOGNIZED_KEYS, keyPresent cond k = true →
      keyReasons b cond k ≠ [] := by
    intro k hk hp
    exact keyReasons_ne_nil b cond k hk hp (hsat k hk hp)
  refine ⟨?_, evalRule_reasons b cond, hne, ?_, ?_, ?_⟩
  · by_cases hg : noRecognizedCond cond
    · intro hnil
      rw [evalRule_reasons, if_pos hg] at hnil
      simp [List.append_eq_nil] at hnil
    · obtain ⟨k, hk, hkp⟩ :
          ∃ k ∈ RECOGNIZED_KEYS, keyPresent cond k = true := by
        by_contra hc
        push_neg at hc
        apply hg
        refine (noRecognizedCond_iff cond).mpr (fun k hk => ?_)
        have := hc k hk
        cases hkk : keyPresent cond k with
        | false => rfl
        | true => exact absurd hkk this
      have hnek := hne k hk hkp
      intro hnil
      rw [evalRule_reasons] at hnil
      rw [if_neg hg] at hnil
      simp only [List.append_nil, List.append_eq_nil] at hnil
      obtain ⟨⟨⟨⟨⟨⟨⟨⟨⟨c1, c2⟩, c3⟩, c4⟩, c5⟩, c6⟩, c7⟩, c8⟩, c9⟩, c10⟩ := hnil
      have hmem : k = "size_any" ∨ k = "min_seats" ∨ k = "max_seats" ∨
          k = "min_area_sqm" ∨ k = "max_area_sqm" ∨ k = "min_staff" ∨
          k = "max_staff" ∨ k = "features_any" ∨ k = "features_all" ∨
          k = "features_none" := by
        simpa [RECOGNIZED_KEYS] using hk
      rcases hmem with hh | hh | hh | hh | hh | hh | hh | hh | hh | hh <;>
        subst hh
      · exact hnek c1
      · exact hnek c2
      · exact hnek c3
      · exact hnek c4
      · exact hnek c5
      · exact hnek c6
      · exact hnek c7
      · exact hnek c8
      · exact hnek c9
      · exact hnek c10
  · intro hp
    have hp' : (!((condGet cond "features_any").asList.dedup).isEmpty) = true := by
      rwa [keyPresent_features_any] at hp
    have he' : (!(b.features.dedup.filter
        (fun t => ((condGet cond "features_any").asList.dedup).contains t)).isEmpty)
        = true := hsat "features_any" (by decide) hp
    refine ⟨?_, sortTags_sorted _⟩
    rw [keyReasons_features_any]
    unfold featuresAnyEval
    rw [if_pos hp']
    simp only [he', reduceIte]
    rfl
  · intro hp
    have hp' : (!((condGet cond "features_all").asList.dedup).isEmpty) = true := by
      rwa [keyPresent_features_all] at hp
    have he' : ((condGet cond "features_all").asList.dedup).all
        (fun t => b.features.dedup.contains t) = true :=
      hsat "features_all" (by decide) hp
    refine ⟨?_, sortTags_sorted _⟩
    rw [keyReasons_features_all]
    unfold featuresAllEval
    rw [if_pos hp']
    simp only [he', reduceIte]
    rfl
  · intro hp
    have hp' : (!((condGet cond "features_none").asList.dedup).isEmpty) = true := by
      rwa [keyPresent_features_none] at hp
    have he' : (b.features.dedup.filter
        (fun t => ((condGet cond "features_none").asList.dedup).contains t)).isEmpty
        = true := hsat "features_none" (by decide) hp
    refine ⟨?_, sortTags_sorted _⟩
    rw [keyReasons_features_none]
    unfold featuresNoneEval
    rw [if_pos hp']
    simp only [he', reduceIte]
    rfl

/-- Witness for C7 at the small-restaurant profile and the two-key rule. -/
theorem C7_reason_structure_witness :
    (evalRule bMain rTwoKeys.conditions).2 ≠ [] :=
  (C7_reason_structure bMain rTwoKeys.conditions (by decide)).1

theorem condGet_cons_ne {k k' : String} (v : CVal) (cond : CondMap)
    (h : k' ≠ k) : condGet ((k, v) :: cond) k' = condGet cond k' := by
  have hb : (k' == k) = false := by simp [h]
  simp [condGet, List.lookup, hb]

theorem sizeAnyEval_congr (b : BusinessInput) {c1 c2 : CondMap}
    (h : condGet c1 "size_any" = condGet c2 "size_any") :
    sizeAnyEval b c1 = sizeAnyEval b c2 := by
  unfold sizeAnyEval
  rw [h]

theorem numCondEval_congr (k : String) (isMin : Bool) (label : String)
    (field : Int) {c1 c2 : CondMap} (h : condGet c1 k = condGet c2 k) :
    numCondEval k isMin label field c1 = numCondEval k isMin label field c2 := by
  unfold numCondEval
  rw [h]

/-- An unrecognized condition key is read by no evaluation step: adding it
leaves both `checks` and `reasons` unchanged. -/
theorem evalRule_unrecognized (b : BusinessInput) (cond : CondMap)
    (k : String) (v : CVal) (hk : RECOGNIZED_KEYS.contains k = false) :
    evalRule b ((k, v) :: cond) = evalRule b cond := by
  have hk' : k ∉ RECOGNIZED_KEYS := by
    intro hmem
    have hc : RECOGNIZED_KEYS.contains k = true := List.elem_iff.mpr hmem
    rw [hc] at hk
    exact Bool.noConfusion hk
  have g : ∀ k', k' ∈ RECOGNIZED_KEYS →
      condGet ((k, v) :: cond) k' = condGet cond k' := by
    intro k' hmem
    refine condGet_cons_ne v cond (fun hh => hk' ?_)
    rwa [hh] at hmem
  have e1 := g "size_any" (by decide)
  have e2 := g "min_seats" (by decide)
  have e3 := g "max_seats" (by decide)
  have e4 := g "min_area_sqm" (by decide)
  have e5 := g "max_area_sqm" (by decide)
  have e6 := g "min_staff" (by decide)
  have e7 := g "max_staff" (by decide)
  have e8 := g "features_any" (by decide)
  have e9 := g "features_all" (by decide)
  have e10 := g "features_none" (by decide)
  have s1 := sizeAnyEval_congr b e1
  have s2 := numCondEval_congr "min_seats" true "" b.seats e2
  have s3 := numCondEval_congr "max_seats" false "" b.seats e3
  have s4 := numCondEval_congr "min_area_sqm" true "שטח " b.area_sqm e4
  have s5 := numCondEval_congr "max_area_sqm" false "שטח " b.area_sqm e5
  have s6 := numCondEval_congr "min_staff" true "צוות " b.staff_count e6
  have s7 := numCondEval_congr "max_staff" false "צוות " b.staff_count e7
  simp only [evalRule, noRecognizedCond, e1, e2, e3, e4, e5, e6, e7, e8,
    e9, e10, s1, s2, s3, s4, s5, s6, s7]

/-- Claim C8: malformed rules never abort the catalog scan — a matched
rule with a missing or whitespace-only title is reported with the
placeholder title, unrecognized condition keys are ignored without
affecting the outcome, and every other rule of the catalog is still
evaluated independently. -/
theorem C8_malformed_tolerance (b : BusinessInput) (r : Rule)
    (cond : CondMap) (k : String) (v : CVal) (pre post : List Rule)
    (hk : RECOGNIZED_KEYS.contains k = false)
    (ht : pyStrip (r.title.getD "") = "") :
    (∀ it ∈ matchGen b [r], it.title = "(ללא כותרת)") ∧
    evalRule b ((k, v) :: cond) = evalRule b cond ∧
    matchGen b (pre ++ r :: post) =
      matchGen b pre ++ matchGen b [r] ++ matchGen b post := by
  refine ⟨?_, evalRule_unrecognized b cond k v hk, ?_⟩
  · intro it hit
    rw [matchGen_singleton] at hit
    by_cases hm : (evalRule b r.conditions).1.all id
    · rw [if_pos hm] at hit
      simp only [List.mem_singleton] at hit
      subst hit
      simp [mkMatchItem, ht]
    · rw [if_neg hm] at hit
      simp at hit
  · have hsplit : pre ++ r :: post = pre ++ [r] ++ post := by simp
    rw [hsplit, matchGen_append, matchGen_append]

/-- Witness for C8: whitespace-only title, a bogus condition key, and a
three-rule catalog split. -/
theorem C8_malformed_tolerance_witness :
    (mkMatchItem rWhitespaceTitle.id rWhitespaceTitle.category
      rWhitespaceTitle.title rWhitespaceTitle.description
      rWhitespaceTitle.priority
      (evalRule bMain rWhitespaceTitle.conditions).2).title =
        "(ללא כותרת)" ∧
    evalRule bMain [("bogus", CVal.cint 7)] = evalRule bMain [] ∧
    matchGen bMain ([rHighPrio] ++ rWhitespaceTitle :: [rLowPrio]) =
      matchGen bMain [rHighPrio] ++ matchGen bMain [rWhitespaceTitle] ++
        matchGen bMain [rLowPrio] := by
  obtain ⟨h1, h2, h3⟩ := C8_malformed_tolerance bMain rWhitespaceTitle []
    "bogus" (CVal.cint 7) [rHighPrio] [rLowPrio] (by decide) (by decide)
  exact ⟨h1 _ (by decide), h2, h3⟩

theorem condGet_removeKey (cond : CondMap) (k k' : String) :
    condGet (removeKey cond k) k' =
      if k' = k then CVal.cnull else condGet cond k' := by
  induction cond with
  | nil => by_cases h : k' = k <;> simp [condGet, removeKey, h]
  | cons p rest ih =>
      obtain ⟨pk, pv⟩ := p
      simp only [removeKey, List.filter_cons] at ih ⊢
      by_cases hpk : pk = k
      · subst hpk
        simp only [show (decide ¬((pk, pv).1 = pk)) = false by simp,
          Bool.false_eq_true, if_false]
        by_cases hk' : k' = pk
        · subst hk'
          rw [ih]
          simp
        · rw [ih, if_neg hk', if_neg hk', condGet_cons_ne pv rest hk']
      · simp only [show (decide ¬((pk, pv).1 = k)) = true by simp [hpk],
          reduceIte]
        by_cases hk' : k' = pk
        · have hne : ¬(k' = k) := fun hh => hpk (hk'.symm.trans hh)
          rw [if_neg hne]
          rw [show condGet ((pk, pv) ::
              List.filter (fun p => decide (p.1 ≠ k)) rest) k' = pv from by
            simp [condGet, List.lookup, hk']]
          rw [show condGet ((pk, pv) :: rest) k' = pv from by
            simp [condGet, List.lookup, hk']]
        · rw [condGet_cons_ne pv _ hk', condGet_cons_ne pv rest hk', ih]

/-- The evaluator reads a condition map only through the projections the
source applies to each recognized key; condition maps agreeing on those
projections evaluate identically. -/
theorem evalRule_congr (b : BusinessInput) {c1 c2 : CondMap}
    (hszt : (condGet c1 "size_any").truthy = (condGet c2 "size_any").truthy)
    (hszl : (condGet c1 "size_any").asList = (condGet c2 "size_any").asList)
    (hms : condGet c1 "min_seats" = condGet c2 "min_seats")
    (hxs : condGet c1 "max_seats" = condGet c2 "max_seats")
    (hma : condGet c1 "min_area_sqm" = condGet c2 "min_area_sqm")
    (hxa : condGet c1 "max_area_sqm" = condGet c2 "max_area_sqm")
    (hmf : condGet c1 "min_staff" = condGet c2 "min_staff")
    (hxf : condGet c1 "max_staff" = condGet c2 "max_staff")
    (hfa : (condGet c1 "features_any").asList = (condGet c2 "features_any").asList)
    (hfl : (condGet c1 "features_all").asList = (condGet c2 "features_all").asList)
    (hfn : (condGet c1 "features_none").asList = (condGet c2 "features_none").asList) :
    evalRule b c1 = evalRule b c2 := by
  have g : noRecognizedCond c1 = noRecognizedCond c2 := by
    unfold noRecognizedCond
    rw [hszt, hms, hxs, hma, hxa, hmf, hxf, hfa, hfl, hfn]
  have s1 : sizeAnyEval b c1 = sizeAnyEval b c2 := by
    simp only [sizeAnyEval]
    rw [hszt, hszl]
  have s2 := numCondEval_congr "min_seats" true "" b.seats hms
  have s3 := numCondEval_congr "max_seats" false "" b.seats hxs
  have s4 := numCondEval_congr "min_area_sqm" true "שטח " b.area_sqm hma
  have s5 := numCondEval_congr "max_area_sqm" false "שטח " b.area_sqm hxa
  have s6 := numCondEval_congr "min_staff" true "צוות " b.staff_count hmf
  have s7 := numCondEval_congr "max_staff" false "צוות " b.staff_count hxf
  simp only [evalRule, s1, s2, s3, s4, s5, s6, s7, hfa, hfl, hfn, g]

/-- A set-valued condition key that is present with an empty list behaves
exactly as if the key were absent. -/
theorem evalRule_emptyList_removeKey (b : BusinessInput) (cond : CondMap)
    (k : String)
    (hkm : k = "size_any" ∨ k = "features_any" ∨ k = "features_all" ∨
      k = "features_none")
    (hlook : cond.lookup k = some (CVal.clist [])) :
    evalRule b cond = evalRule b (removeKey cond k) := by
  have hget : condGet cond k = CVal.clist [] := by simp [condGet, hlook]
  have hrm : condGet (removeKey cond k) k = CVal.cnull := by
    rw [condGet_removeKey]
    simp
  have hoth : ∀ k'', ¬(k'' = k) →
      condGet (removeKey cond k) k'' = condGet cond k'' := by
    intro k'' hne
    rw [condGet_removeKey, if_neg hne]
  rcases hkm with hh | hh | hh | hh <;> subst hh <;>
    refine evalRule_congr b ?_ ?_ ?_ ?_ ?_ ?_ ?_ ?_ ?_ ?_ ?_ <;>
    first
      | (rw [hget, hrm]; try decide)
      | (rw [hoth "size_any" (by decide)])
      | (rw [hoth "min_seats" (by decide)])
      | (rw [hoth "max_seats" (by decide)])
      | (rw [hoth "min_area_sqm" (by decide)])
      | (rw [hoth "max_area_sqm" (by decide)])
      | (rw [hoth "min_staff" (by decide)])
      | (rw [hoth "max_staff" (by decide)])
      | (rw [hoth "features_any" (by decide)])
      | (rw [hoth "features_all" (by decide)])
      | (rw [hoth "features_none" (by decide)])

/-- Claim C2 as stated is false: a numeric key carrying 0 is NOT treated
as absent.  `max_seats: 0` is evaluated (its value is not `None`) and
fails the 20-seat profile, while removing the key makes the rule a
general rule that matches. -/
theorem C2_counterexample :
    matchGen bMain [rMaxZero] = [] ∧ matchGen bMain [rNoConds] ≠ [] := by
  decide

/-- Claim C2 (amended): a SET-valued key (`size_any`, `features_any`,
`features_all`, `features_none`) present with an empty list is treated
exactly as if absent — evaluation is unchanged by removing it; a numeric
key with value 0, however, is present for the evaluator (only `None`
values are skipped), so it is evaluated and `max_*: 0` can force a
failure. -/
theorem C2_empty_value_policy (b : BusinessInput) (cond : CondMap) :
    (∀ k, (k = "size_any" ∨ k = "features_any" ∨ k = "features_all" ∨
        k = "features_none") →
      cond.lookup k = some (CVal.clist []) →
      evalRule b cond = evalRule b (removeKey cond k)) ∧
    (∀ k, (k = "min_seats" ∨ k = "max_seats" ∨ k = "min_area_sqm" ∨
        k = "max_area_sqm" ∨ k = "min_staff" ∨ k = "max_staff") →
      cond.lookup k = some (CVal.cint 0) → keyPresent cond k = true) := by
  constructor
  · intro k hkm hlook
    exact evalRule_emptyList_removeKey b cond k hkm hlook
  · intro k hkm hlook
    have hget : condGet cond k = CVal.cint 0 := by simp [condGet, hlook]
    rcases hkm with h | h | h | h | h | h <;> subst h
    · rw [keyPresent_min_seats, hget]
      rfl
    · rw [keyPresent_max_seats, hget]
      rfl
    · rw [keyPresent_min_area, hget]
      rfl
    · rw [keyPresent_max_area, hget]
      rfl
    · rw [keyPresent_min_staff, hget]
      rfl
    · rw [keyPresent_max_staff, hget]
      rfl

/-- Witness for the amended C2: an empty `features_any` is removable, and
a `max_seats: 0` key is present for the evaluator. -/
theorem C2_empty_value_policy_witness :
    evalRule bMain
        [("features_any", CVal.clist []), ("min_seats", CVal.cint 10)] =
      evalRule bMain
        (removeKey [("features_any", CVal.clist []),
          ("min_seats", CVal.cint 10)] "features_any") ∧
    keyPresent [("max_seats", CVal.cint 0)] "max_seats" = true := by
  obtain ⟨h1, -⟩ := C2_empty_value_policy bMain
    [("features_any", CVal.clist []), ("min_seats", CVal.cint 10)]
  obtain ⟨-, h2⟩ := C2_empty_value_policy bMain [("max_seats", CVal.cint 0)]
  exact ⟨h1 "features_any" (Or.inr (Or.inl rfl)) rfl,
    h2 "max_seats" (Or.inr (Or.inl rfl)) rfl⟩

theorem validationErrors_eq_nil_iff (raw : RawBusinessInput) :
    validationErrors raw = [] ↔
      (raw.size ∈ sizeLiterals ∧ 0 ≤ raw.seats ∧
        (∀ a, raw.area_sqm = some a → 0 ≤ a) ∧
        (∀ st, raw.staff_count = some st → 0 ≤ st) ∧
        ∀ t ∈ raw.features, t ∈ ALLOWED_FEATURES) := by
  unfold validationErrors
  simp only [List.append_eq_nil]
  constructor
  · rintro ⟨⟨⟨⟨g1, g2⟩, g3⟩, g4⟩, g5⟩
    refine ⟨?_, ?_, ?_, ?_, ?_⟩
    · by_cases h : raw.size ∈ sizeLiterals
      · exact h
      · rw [if_neg h] at g1
        cases g1
    · by_cases h : raw.seats < 0
      · rw [if_pos h] at g2
        cases g2
      · omega
    · intro a ha
      rw [ha] at g3
      have g3' : (if a < 0 then [ValidationError.negativeArea a] else []) =
          ([] : List ValidationError) := g3
      by_cases h : a < 0
      · rw [if_pos h] at g3'
        cases g3'
      · omega
    · intro st hst
      rw [hst] at g4
      have g4' : (if st < 0 then [ValidationError.negativeStaff st] else []) =
          ([] : List ValidationError) := g4
      by_cases h : st < 0
      · rw [if_pos h] at g4'
        cases g4'
      · omega
    · intro t ht
      by_cases h : ((raw.features.filter
          (fun t => !ALLOWED_FEATURES.contains t)).dedup).isEmpty
      · have hnil : (raw.features.filter
            (fun t => !ALLOWED_FEATURES.contains t)).dedup = [] :=
          List.isEmpty_iff.mp h
        rw [List.dedup_eq_nil] at hnil
        rw [List.filter_eq_nil_iff] at hnil
        have := hnil t ht
        simp only [Bool.not_eq_true', Bool.not_eq_false] at this
        exact List.elem_iff.mp this
      · simp only [h] at g5
        cases g5
  · rintro ⟨h1, h2, h3, h4, h5⟩
    have g5 : (raw.features.filter
        (fun t => !ALLOWED_FEATURES.contains t)).dedup = [] := by
      rw [List.dedup_eq_nil, List.filter_eq_nil_iff]
      intro t ht
      simp only [Bool.not_eq_true', Bool.not_eq_false]
      exact List.elem_iff.mpr (h5 t ht)
    refine ⟨⟨⟨⟨?_, ?_⟩, ?_⟩, ?_⟩, ?_⟩
    · rw [if_pos h1]
    · rw [if_neg (by omega)]
    · cases ha : raw.area_sqm with
      | none => rfl
      | some a =>
          show (if a < 0 then [ValidationError.negativeArea a] else []) = []
          rw [if_neg (by have := h3 a ha; omega)]
    · cases hs : raw.staff_count with
      | none => rfl
      | some st =>
          show (if st < 0 then [ValidationError.negativeStaff st] else []) = []
          rw [if_neg (by have := h4 st hs; omega)]
    · simp only [g5]
      rfl

/-- Claim C9: profile construction accepts exactly the inputs with an
enumerated size, non-negative counts and vocabulary features (defaulting
the optional counts to 0), and an out-of-vocabulary feature tag always
produces a validation error naming exactly the offending tags. -/
theorem C9_validation (raw : RawBusinessInput) :
    ((∃ bi, validateBusinessInput raw = .ok bi) ↔
      (raw.size ∈ sizeLiterals ∧ 0 ≤ raw.seats ∧
        (∀ a, raw.area_sqm = some a → 0 ≤ a) ∧
        (∀ st, raw.staff_count = some st → 0 ≤ st) ∧
        ∀ t ∈ raw.features, t ∈ ALLOWED_FEATURES)) ∧
    (∀ bi, validateBusinessInput raw = .ok bi →
      bi = { size := raw.size, seats := raw.seats,
             area_sqm := raw.area_sqm.getD 0,
             staff_count := raw.staff_count.getD 0,
             features := raw.features }) ∧
    ((∃ t ∈ raw.features, t ∉ ALLOWED_FEATURES) →
      ∃ errs, validateBusinessInput raw = .error errs ∧
        ValidationError.invalidFeatures
          ((raw.features.filter
            (fun t => !ALLOWED_FEATURES.contains t)).dedup) ∈ errs ∧
        ∀ t, t ∈ (raw.features.filter
            (fun t => !ALLOWED_FEATURES.contains t)).dedup ↔
          (t ∈ raw.features ∧ t ∉ ALLOWED_FEATURES)) := by
  refine ⟨?_, ?_, ?_⟩
  · rw [← validationErrors_eq_nil_iff]
    unfold validateBusinessInput
    constructor
    · rintro ⟨bi, hbi⟩
      by_cases h : (validationErrors raw).isEmpty
      · exact List.isEmpty_iff.mp h
      · rw [if_neg h] at hbi
        cases hbi
    · intro h
      rw [if_pos (List.isEmpty_iff.mpr h)]
      exact ⟨_, rfl⟩
  · intro bi hbi
    unfold validateBusinessInput at hbi
    by_cases h : (validationErrors raw).isEmpty
    · rw [if_pos h] at hbi
      cases hbi
      rfl
    · rw [if_neg h] at hbi
      cases hbi
  · rintro ⟨t, ht, htn⟩
    have hinv : (raw.features.filter
        (fun t => !ALLOWED_FEATURES.contains t)).dedup ≠ [] := by
      intro hnil
      rw [List.dedup_eq_nil, List.filter_eq_nil_iff] at hnil
      have := hnil t ht
      simp only [Bool.not_eq_true', Bool.not_eq_false] at this
      exact htn (List.elem_iff.mp this)
    have herrs : validationErrors raw ≠ [] := by
      intro hnil
      rw [validationErrors_eq_nil_iff] at hnil
      exact htn (hnil.2.2.2.2 t ht)
    refine ⟨validationErrors raw, ?_, ?_, ?_⟩
    · unfold validateBusinessInput
      rw [if_neg (fun hh => herrs (List.isEmpty_iff.mp hh))]
    · unfold validationErrors
      refine List.mem_append_right _ ?_
      simp only [List.isEmpty_iff, hinv, if_neg]
      simp [hinv]
    · intro t'
      simp only [List.mem_dedup, List.mem_filter, Bool.not_eq_true',
        Bool.not_eq_false]
      constructor
      · rintro ⟨h1, h2⟩
        refine ⟨h1, fun hmem => ?_⟩
        have hc : ALLOWED_FEATURES.contains t' = true := List.elem_iff.mpr hmem
        rw [hc] at h2
        exact Bool.noConfusion h2
      · rintro ⟨h1, h2⟩
        refine ⟨h1, ?_⟩
        cases hc : ALLOWED_FEATURES.contains t' with
        | false => rfl
        | true => exact absurd (List.elem_iff.mp hc) h2

/-- Witness for C9: the bad-feature raw input is rejected with an error
naming the offending tag. -/
theorem C9_validation_witness :
    ∃ errs, validateBusinessInput rawBadFeature = .error errs ∧
      ValidationError.invalidFeatures
        ((rawBadFeature.features.filter
          (fun t => !ALLOWED_FEATURES.contains t)).dedup) ∈ errs := by
  obtain ⟨-, -, h3⟩ := C9_validation rawBadFeature
  obtain ⟨errs, he, hmem, -⟩ := h3 ⟨"dragon", by decide, by decide⟩
  exact ⟨errs, he, hmem⟩

/-- Claim C10: a matched rule with no priority field is reported with
priority "Medium"; but if any matched rule carries a priority string
outside {High, Medium, Low}, the whole `match_requirements` call aborts
with a KeyError (from the sort key lookup) and returns no result list. -/
theorem C10_priority_keyerror :
    (∀ (b : BusinessInput) (r : Rule), r.priority = none →
      ∀ it ∈ matchGen b [r], it.priority = "Medium") ∧
    (∀ (b : BusinessInput) (rules : List Rule),
      (∃ it ∈ matchGen b rules, priorityRank it.priority = none) →
      match_requirements b rules = .error "KeyError") := by
  constructor
  · intro b r hpr it hit
    rw [matchGen_singleton] at hit
    by_cases hm : (evalRule b r.conditions).1.all id
    · rw [if_pos hm] at hit
      simp only [List.mem_singleton] at hit
      subst hit
      simp [mkMatchItem, hpr]
    · rw [if_neg hm] at hit
      cases hit
  · rintro b rules ⟨it, hit, hnone⟩
    unfold match_requirements
    rw [if_neg]
    intro hall
    have := List.all_eq_true.mp hall it hit
    rw [hnone] at this
    cases this

/-- Witness for C10: a missing priority becomes Medium, and one matched
rule with priority "URGENT" makes the whole call error out. -/
theorem C10_priority_keyerror_witness :
    (mkMatchItem rNoPriority.id rNoPriority.category rNoPriority.title
      rNoPriority.description rNoPriority.priority
      (evalRule bMain rNoPriority.conditions).2).priority = "Medium" ∧
    match_requirements bMain [rHighPrio, rBadPriority] = .error "KeyError" := by
  refine ⟨?_, ?_⟩
  · exact C10_priority_keyerror.1 bMain rNoPriority rfl _ (by decide)
  · refine C10_priority_keyerror.2 bMain [rHighPrio, rBadPriority] ?_
    refine ⟨mkMatchItem rBadPriority.id rBadPriority.category
      rBadPriority.title rBadPriority.description rBadPriority.priority
      (evalRule bMain rBadPriority.conditions).2, by decide, by decide⟩
